import Mathlib

/-!
Shallow embedding of the tree-locator service (src/main.py) and proofs of the
spec's claims about it.

Modelling conventions:
* Machine floats (`lat`, `lon`, radii) are modelled as `ℚ`; Python `int` as `ℤ`.
* Network I/O is modelled by an `Env` record of oracles: each oracle returns the
  decoded JSON body of one upstream call, or the `UserFacingError` that the HTTP
  layer (`geocode_nominatim` / `_overpass_post`) raises for that call.  The
  response-processing code after the HTTP call is embedded from the source.
* Python exceptions are `Except`: `UserFacingError` for the typed errors the code
  raises, `PyError.internal` for any other exception (for example `TypeError`).
* The `lru_cache` decorators memoise functions that are pure in this model, so a
  cached call and a fresh call agree definitionally and are not modelled apart.
* Python `\s` / `str.strip` whitespace is modelled over its ASCII members; the
  Unicode word class `\w` is modelled over ASCII alphanumerics, the underscore and
  the German letters named in the source pattern.  Python `round` (banker's
  rounding, half to even) is `pyRound`.
-/

deriving instance DecidableEq for Except

/-- The apostrophe character, a member of the allowed punctuation of `validate_q`. -/
def apos : Char := Char.ofNat 39

/-- `class UserFacingError(Exception)` from src/main.py: message plus optional hint. -/
structure UserFacingError where
  message : String
  hint : Option String
  deriving DecidableEq, Repr

/-- A Python exception escaping a handler: either the service's own
`UserFacingError`, or any other exception (mapped to HTTP 500 by the routes). -/
inductive PyError where
  | user (e : UserFacingError)
  | internal
  deriving DecidableEq, Repr

/-- Python whitespace (`str.strip`, regex `\s`), modelled over its ASCII members:
space, tab, newline, carriage return, vertical tab, form feed. -/
def pyIsSpace (c : Char) : Bool :=
  c = ' ' || c = '\t' || c = '\n' || c = '\r' || c = '\x0b' || c = '\x0c'

/-- One pass of `re.sub(cls+, rep, s)`: each maximal run of characters satisfying
`p` is replaced by the single character `rep`.  `prevIn` records whether the
previous character was inside such a run. -/
def subRunsGo (p : Char → Bool) (rep : Char) (prevIn : Bool) : List Char → List Char
  | [] => []
  | c :: cs =>
    if p c then
      if prevIn then subRunsGo p rep true cs
      else rep :: subRunsGo p rep true cs
    else c :: subRunsGo p rep false cs

/-- `re.sub(r"\s+", " ", l)` from `_norm_q`. -/
def collapseWS (l : List Char) : List Char :=
  subRunsGo pyIsSpace ' ' false l

/-- Drop trailing whitespace, the right half of Python `str.strip()`. -/
def dropTrailingWS (l : List Char) : List Char :=
  ((l.reverse.dropWhile pyIsSpace)).reverse

/-- Python `str.strip()`: drop leading and trailing whitespace. -/
def pyStrip (l : List Char) : List Char :=
  dropTrailingWS (l.dropWhile pyIsSpace)

/-- `_norm_q` on character lists: `re.sub(r"\s+", " ", q.strip())`. -/
def normQList (l : List Char) : List Char :=
  collapseWS (pyStrip l)

/-- `def _norm_q(q): return re.sub(r"\s+", " ", q.strip())` from src/main.py. -/
def _norm_q (q : String) : String :=
  String.mk (normQList q.data)

/-- The German letters written explicitly in the `validate_q` character class. -/
def isGermanLetter (c : Char) : Bool :=
  c = 'ä' || c = 'ö' || c = 'ü' || c = 'Ä' || c = 'Ö' || c = 'Ü' || c = 'ß'

/-- Python regex `\w` under `re.UNICODE`: letters, digits and the underscore.
Modelled over ASCII alphanumerics, the underscore, and the German letters that
`validate_q`'s pattern names.  Note that `\w` does match `_`. -/
def pyWordChar (c : Char) : Bool :=
  c.isAlphanum || c = '_' || isGermanLetter c

/-- Membership in the `validate_q` character class `[\w\säöüÄÖÜß.,\-'/()]`. -/
def qClassChar (c : Char) : Bool :=
  pyWordChar c || pyIsSpace c || isGermanLetter c ||
    c = '.' || c = ',' || c = '-' || c = apos || c = '/' || c = '(' || c = ')'

/-- `re.match(r"^[\w\säöüÄÖÜß.,\-'/()]+$", q)` succeeds iff `q` is non-empty and
every character is in the class. -/
def matchesQClass (l : List Char) : Bool :=
  !l.isEmpty && l.all qClassChar

/-- `Q_MAX_LEN = 120` from src/main.py. -/
def Q_MAX_LEN : Nat := 120

/-- `RADIUS_MIN_KM = 0.1` from src/main.py. -/
def RADIUS_MIN_KM : ℚ := 1 / 10

/-- `RADIUS_MAX_KM = 50.0` from src/main.py. -/
def RADIUS_MAX_KM : ℚ := 50

/-- `SAMPLE_MAX = 2000` from src/main.py. -/
def SAMPLE_MAX : Int := 2000

/-- `SAMPLE_DEFAULT = 500` from src/main.py. -/
def SAMPLE_DEFAULT : Int := 500

/-- `def validate_q(q)` from src/main.py: normalise whitespace, check the length
bound 2..Q_MAX_LEN, check the character class, return the normalised string. -/
def validate_q (q : String) : Except UserFacingError String :=
  let q := _norm_q q
  if ¬ (2 ≤ q.length ∧ q.length ≤ Q_MAX_LEN) then
    Except.error ⟨"Bitte gib einen Ort mit 2-120 Zeichen an.",
      some ("Beispiel: Darmstadt, Hessen, DE")⟩
  else if ¬ (matchesQClass q.data = true) then
    Except.error ⟨"Der Ort enthaelt nicht erlaubte Zeichen.",
      some ("Erlaubt sind Buchstaben/Zahlen, Leerzeichen sowie Satzzeichen")⟩
  else
    Except.ok q

/-- The raw `radius_km` query parameter as seen by `float(raw)`: either a string
that parses to a numeric value, or one that does not. -/
inductive RadiusRaw where
  | notANum
  | numVal (v : ℚ)
  deriving DecidableEq, Repr

/-- `def parse_radius_km(raw)` from src/main.py: `float(raw)` then the range
check `RADIUS_MIN_KM <= val <= RADIUS_MAX_KM`. -/
def parse_radius_km (raw : RadiusRaw) : Except UserFacingError ℚ :=
  match raw with
  | RadiusRaw.notANum =>
      Except.error ⟨"Radius muss eine Zahl sein.", some ("Beispiel: 2 oder 5.5")⟩
  | RadiusRaw.numVal v =>
      if ¬ (RADIUS_MIN_KM ≤ v ∧ v ≤ RADIUS_MAX_KM) then
        Except.error ⟨"Radius muss zwischen 0.1 und 50 km liegen.", none⟩
      else Except.ok v

/-- The raw `limit` query parameter as seen by `parse_limit`: absent is modelled
at the call site by `Option`, a blank string, a non-integer string, or an
integer value. -/
inductive LimitRaw where
  | blank
  | notAnInt
  | intVal (v : Int)
  deriving DecidableEq, Repr

/-- `def parse_limit(raw, default)` from src/main.py. -/
def parse_limit (raw : Option LimitRaw) (default : Int) : Except UserFacingError Int :=
  match raw with
  | none => Except.ok default
  | some LimitRaw.blank => Except.ok default
  | some LimitRaw.notAnInt =>
      Except.error ⟨"Limit muss eine ganze Zahl sein.", some ("1-2000")⟩
  | some (LimitRaw.intVal v) =>
      if ¬ (1 ≤ v ∧ v ≤ SAMPLE_MAX) then
        Except.error ⟨"Limit muss zwischen 1 und 2000 liegen.", none⟩
      else Except.ok v

/-- Python `str.lower()`, modelled over ASCII. -/
def pyLower (s : String) : String :=
  String.mk (s.data.map Char.toLower)

/-- Python `str.strip()` on a string. -/
def pyStripStr (s : String) : String :=
  String.mk (pyStrip s.data)

/-- `def parse_mode(raw)` from src/main.py: `(raw or "").strip().lower()`, then
empty or `count` gives `count`, `sample` gives `sample`, anything else raises. -/
def parse_mode (raw : Option String) : Except UserFacingError String :=
  let r := pyLower (pyStripStr (raw.getD ""))
  if r = "" ∨ r = "count" then Except.ok ("count")
  else if r = "sample" then Except.ok ("sample")
  else Except.error ⟨"Ungueltiger Modus.", some ("Erlaubt: count, sample")⟩

/-- `def parse_query_mode(raw)` from src/main.py: `(raw or "boundary")`, strip
and lower, then membership in `{boundary, radius}`. -/
def parse_query_mode (raw : Option String) : Except UserFacingError String :=
  let base := match raw with
    | none => "boundary"
    | some s => if s = "" then "boundary" else s
  let r := pyLower (pyStripStr base)
  if r = "boundary" ∨ r = "radius" then Except.ok r
  else Except.error ⟨"Ungueltiger Suchmodus.", some ("Erlaubt: boundary, radius")⟩

/-- An opaque non-empty GeoJSON geometry object, as Nominatim returns in the
`geojson` field.  Such a dict always has at least a `type` key, so Python
truthiness (`if boundary_geojson:`) agrees with `Option.isSome` on
`Option BoundaryGeo` values. -/
structure BoundaryGeo where
  val : String
  deriving DecidableEq, Repr

/-- `@dataclass class GeocodeResult` from src/main.py. -/
structure GeocodeResult where
  q : String
  display_name : String
  lat : ℚ
  lon : ℚ
  osm_type : String
  osm_id : Int
  geojson : Option BoundaryGeo
  deriving DecidableEq, Repr

/-- `def _area_id_from_osm(osm_type, osm_id)` from src/main.py: lowercase the
type; `relation` maps to `3600000000 + id`, `way` to `2400000000 + id`, anything
else to `None`. -/
def _area_id_from_osm (osm_type : String) (osm_id : Int) : Option Int :=
  let t := pyLower osm_type
  if t = "relation" then some (3600000000 + osm_id)
  else if t = "way" then some (2400000000 + osm_id)
  else none

/-- Python 3 `round(x)` on a real-valued argument: round half to even. -/
def pyRound (x : ℚ) : Int :=
  let f : Int := Int.floor x
  if x - f < 1 / 2 then f
  else if 1 / 2 < x - f then f + 1
  else if f % 2 = 0 then f else f + 1

/-- One element of a decoded Overpass JSON response.  `tagsTotal` models
`el.get("tags", {}).get("total", 0)` (an absent key gives the default `0`);
`lat`, `lon`, `id` model `el.get(...)` with `None` for an absent key. -/
structure OsmElement where
  type : String
  lat : Option ℚ
  lon : Option ℚ
  id : Option Int
  tagsTotal : Option Int
  deriving DecidableEq, Repr

/-- A decoded Overpass JSON response body: its `elements` array. -/
structure OverpassResponse where
  elements : List OsmElement
  deriving DecidableEq, Repr

/-- The count extraction shared by `overpass_count_by_area` and
`overpass_count_by_radius`: `0` when `elements` is empty, otherwise
`int(elements[0].get("tags", {}).get("total", 0))`. -/
def overpassTotal (resp : OverpassResponse) : Int :=
  match resp.elements with
  | [] => 0
  | e :: _ => e.tagsTotal.getD 0

/-- `{"lat": float(lat), "lon": float(lon), "id": el.get("id")}` from the
sample loops in src/main.py. -/
structure TreePoint where
  lat : ℚ
  lon : ℚ
  id : Option Int
  deriving DecidableEq, Repr

/-- The element loop of `overpass_sample_by_area` / `overpass_sample_by_radius`:
keep `type == "node"` elements having both coordinates, in response order. -/
def extractTreePoints (resp : OverpassResponse) : List TreePoint :=
  resp.elements.foldl
    (fun out el =>
      if el.type ≠ "node" then out
      else
        match el.lat, el.lon with
        | some la, some lo => out ++ [⟨la, lo, el.id⟩]
        | _, _ => out)
    []

/-- The upstream world: each field gives, per call, the decoded JSON body of the
HTTP response, or the `UserFacingError` that `geocode_nominatim` /
`_overpass_post` raises for that call (unreachable service, HTTP 429, 5xx,
malformed body, empty geocoding result, ...). -/
structure Env where
  geocode : String → Except UserFacingError GeocodeResult
  countAreaResp : Int → Except UserFacingError OverpassResponse
  countRadiusResp : ℚ → ℚ → Int → Except UserFacingError OverpassResponse
  sampleAreaResp : Int → Int → Except UserFacingError OverpassResponse
  sampleRadiusResp : ℚ → ℚ → Int → Int → Except UserFacingError OverpassResponse

/-- `def overpass_count_by_area(area_id)` from src/main.py (the `lru_cache`
memoises a function that is pure in this model). -/
def overpass_count_by_area (env : Env) (area_id : Int) : Except UserFacingError Int :=
  match env.countAreaResp area_id with
  | Except.error e => Except.error e
  | Except.ok data => Except.ok (overpassTotal data)

/-- `def overpass_count_by_radius(lat, lon, radius_m)` from src/main.py. -/
def overpass_count_by_radius (env : Env) (lat lon : ℚ) (radius_m : Int) :
    Except UserFacingError Int :=
  match env.countRadiusResp lat lon radius_m with
  | Except.error e => Except.error e
  | Except.ok data => Except.ok (overpassTotal data)

/-- `def overpass_sample_by_area(area_id, limit)` from src/main.py. -/
def overpass_sample_by_area (env : Env) (area_id limit : Int) :
    Except UserFacingError (List TreePoint) :=
  match env.sampleAreaResp area_id limit with
  | Except.error e => Except.error e
  | Except.ok data => Except.ok (extractTreePoints data)

/-- `def overpass_sample_by_radius(lat, lon, radius_m, limit)` from src/main.py. -/
def overpass_sample_by_radius (env : Env) (lat lon : ℚ) (radius_m limit : Int) :
    Except UserFacingError (List TreePoint) :=
  match env.sampleRadiusResp lat lon radius_m limit with
  | Except.error e => Except.error e
  | Except.ok data => Except.ok (extractTreePoints data)

/-- The echoed `query` object of a `run_tree_locator` result. -/
structure QueryEcho where
  q : String
  display_name : String
  lat : ℚ
  lon : ℚ
  query_mode : String
  mode : String
  radius_km : Option ℚ
  limit : Option Int
  deriving DecidableEq, Repr

/-- The dict returned by `run_tree_locator` (the Search Result).  Wall-clock
`timing_ms` is not modelled and is fixed at `0`. -/
structure SearchResult where
  ok : Bool
  query : QueryEcho
  tree_count : Int
  sample : List TreePoint
  boundary_geojson : Option BoundaryGeo
  attribution_text : String
  attribution_license_url : String
  timing_ms : Int
  deriving DecidableEq, Repr

/-- `area_id = _area_id_from_osm(geo.osm_type, geo.osm_id) if query_mode == "boundary" else None`. -/
def effective_area_id (query_mode : String) (geo : GeocodeResult) : Option Int :=
  if query_mode = "boundary" then _area_id_from_osm geo.osm_type geo.osm_id else none

/-- The `used_mode` local of `run_tree_locator`: start from `query_mode` and
fall back to `radius` when boundary mode derived no area id. -/
def used_query_mode (query_mode : String) (geo : GeocodeResult) : String :=
  if query_mode = "boundary" ∧ effective_area_id query_mode geo = none then "radius"
  else query_mode

/-- The `radius_km_val` local of `run_tree_locator`: in radius mode, the
supplied radius or the default 2.0 km; otherwise `None`. -/
def effective_radius_km (query_mode : String) (geo : GeocodeResult)
    (radius_km : Option ℚ) : Option ℚ :=
  if used_query_mode query_mode geo = "radius" then some (radius_km.getD 2) else none

/-- The `radius_m` local of `run_tree_locator`: `int(round(radius_km_val * 1000))`. -/
def effective_radius_m (query_mode : String) (geo : GeocodeResult)
    (radius_km : Option ℚ) : Option Int :=
  if used_query_mode query_mode geo = "radius" then
    some (pyRound ((radius_km.getD 2) * 1000))
  else none

/-- `int(x)` applied to an `Optional[int]`: `int(None)` raises a `TypeError`,
modelled as `PyError.internal`. -/
def pyIntOfOption (x : Option Int) : Except PyError Int :=
  match x with
  | some v => Except.ok v
  | none => Except.error PyError.internal

/-- The mode-dispatch block of `run_tree_locator` (lines 383-405 of
src/main.py): fetch the count, and in sample mode also the sample unless the
count exceeds 200000; returns `(tree_count, sample)`. -/
def fetch_count_sample (env : Env) (geo : GeocodeResult) (used_mode : String)
    (area_id radius_m : Option Int) (mode : String) (limit : Int) :
    Except PyError (Int × List TreePoint) :=
  if mode = "count" then
    if used_mode = "boundary" then
      match pyIntOfOption area_id with
      | Except.error e => Except.error e
      | Except.ok a =>
        match overpass_count_by_area env a with
        | Except.error e => Except.error (PyError.user e)
        | Except.ok c => Except.ok (c, [])
    else
      match pyIntOfOption radius_m with
      | Except.error e => Except.error e
      | Except.ok m =>
        match overpass_count_by_radius env geo.lat geo.lon m with
        | Except.error e => Except.error (PyError.user e)
        | Except.ok c => Except.ok (c, [])
  else
    if limit > SAMPLE_MAX then
      Except.error (PyError.user ⟨"Limit zu hoch. Maximal 2000.", none⟩)
    else if used_mode = "boundary" then
      match pyIntOfOption area_id with
      | Except.error e => Except.error e
      | Except.ok a =>
        match overpass_count_by_area env a with
        | Except.error e => Except.error (PyError.user e)
        | Except.ok c =>
          if c > 200000 then Except.ok (c, [])
          else
            match overpass_sample_by_area env a limit with
            | Except.error e => Except.error (PyError.user e)
            | Except.ok s => Except.ok (c, s)
    else
      match pyIntOfOption radius_m with
      | Except.error e => Except.error e
      | Except.ok m =>
        match overpass_count_by_radius env geo.lat geo.lon m with
        | Except.error e => Except.error (PyError.user e)
        | Except.ok c =>
          if c > 200000 then Except.ok (c, [])
          else
            match overpass_sample_by_radius env geo.lat geo.lon m limit with
            | Except.error e => Except.error (PyError.user e)
            | Except.ok s => Except.ok (c, s)

/-- The attribution string of src/main.py. -/
def attributionText : String := "© OpenStreetMap contributors (ODbL)"

/-- The attribution license URL of src/main.py. -/
def licenseUrl : String := "https://opendatacommons.org/licenses/odbl/"

/-- `def run_tree_locator(q, query_mode, radius_km, mode, limit)` from
src/main.py: geocode, resolve the effective spatial mode with boundary-to-radius
fallback, dispatch on `mode`, and assemble the result dict. -/
def run_tree_locator (env : Env) (q : String) (query_mode : String)
    (radius_km : Option ℚ) (mode : String) (limit : Int) :
    Except PyError SearchResult :=
  match env.geocode q with
  | Except.error e => Except.error (PyError.user e)
  | Except.ok geo =>
    match fetch_count_sample env geo (used_query_mode query_mode geo)
        (effective_area_id query_mode geo)
        (effective_radius_m query_mode geo radius_km) mode limit with
    | Except.error e => Except.error e
    | Except.ok (tree_count, sample) =>
      Except.ok
        { ok := true
          query :=
            { q := geo.q
              display_name := geo.display_name
              lat := geo.lat
              lon := geo.lon
              query_mode := used_query_mode query_mode geo
              mode := mode
              radius_km := effective_radius_km query_mode geo radius_km
              limit := if mode = "sample" then some limit else none }
          tree_count := tree_count
          sample := sample
          boundary_geojson := geo.geojson
          attribution_text := attributionText
          attribution_license_url := licenseUrl
          timing_ms := 0 }

/-- The `properties` dict of an emitted feature: its `kind` value, and its `id`
entry when the key is present (`some p.id` for tree features, `none` for the
boundary feature, whose dict has no `id` key). -/
structure FeatureProps where
  kind : String
  id : Option (Option Int)
  deriving DecidableEq, Repr

/-- The `geometry` of an emitted feature: a `Point` with `[lon, lat]`
coordinates, or the boundary geometry passed through unchanged. -/
inductive FeatGeometry where
  | point (coordinates : List ℚ)
  | passthrough (g : BoundaryGeo)
  deriving DecidableEq, Repr

/-- A GeoJSON `Feature` dict as built by `geojson_featurecollection`. -/
structure Feature where
  type : String
  properties : FeatureProps
  geometry : FeatGeometry
  deriving DecidableEq, Repr

/-- A GeoJSON `FeatureCollection` dict as built by `geojson_featurecollection`:
`type`, the `features` array, and the top-level `properties.attribution` string. -/
structure FeatureCollection where
  type : String
  features : List Feature
  props_attribution : String
  deriving DecidableEq, Repr

/-- The tree feature built for one sample point. -/
def treeFeature (p : TreePoint) : Feature :=
  ⟨"Feature", ⟨"tree", some p.id⟩, FeatGeometry.point [p.lon, p.lat]⟩

/-- `def geojson_featurecollection(points, boundary_geojson=None)` from
src/main.py.  `if boundary_geojson:` is truthiness on an optional dict; a
`BoundaryGeo` models a non-empty geometry dict, so it is `Option.isSome` here. -/
def geojson_featurecollection (points : List TreePoint)
    (boundary_geojson : Option BoundaryGeo) : FeatureCollection :=
  let feats : List Feature :=
    match boundary_geojson with
    | some b => [⟨"Feature", ⟨"boundary", none⟩, FeatGeometry.passthrough b⟩]
    | none => []
  let feats := points.foldl (fun acc p => acc ++ [treeFeature p]) feats
  ⟨"FeatureCollection", feats, attributionText⟩

/-- The query parameters of an HTTP request to `/api/geojson`, after URL
decoding: `request.args.get(...)` gives `none` for an absent parameter.  The
numeric parameters carry their parse outcome (see `RadiusRaw`, `LimitRaw`). -/
structure ApiRequest where
  q : String
  query_mode : Option String
  mode : Option String
  radius_km : Option RadiusRaw
  limit : Option LimitRaw
  deriving Repr

/-- The body of a response from the `/api/geojson` route: the JSON error
envelope `{"ok": ok, "error": error, "hint": hint}`, or the GeoJSON file
download with its filename. -/
inductive ApiBody where
  | errorBody (ok : Bool) (error : String) (hint : Option String)
  | fileBody (fc : FeatureCollection) (filename : String)
  deriving DecidableEq, Repr

/-- An HTTP response: status code and body. -/
structure ApiResponse where
  status : Int
  body : ApiBody
  deriving DecidableEq, Repr

/-- `jsonify({"ok": False, "error": e.message, "hint": e.hint}), 400`. -/
def errResp400 (e : UserFacingError) : ApiResponse :=
  ⟨400, ApiBody.errorBody false e.message e.hint⟩

/-- The catch-all 500 response of the route handlers. -/
def errResp500 : ApiResponse :=
  ⟨500, ApiBody.errorBody false ("Unerwarteter Fehler.")
    (some ("Bitte spaeter erneut versuchen."))⟩

/-- Python `x or default` on an optional string: `None` and `""` give `default`. -/
def pyOrElse (o : Option String) (d : String) : String :=
  match o with
  | none => d
  | some s => if s = "" then d else s

/-- `f"trees_{re.sub(r'[^a-zA-Z0-9_-]+', '_', q)[:60]}.geojson"` from
`api_geojson`. -/
def geojson_filename (q : String) : String :=
  "trees_" ++
    String.mk ((subRunsGo (fun c => !(c.isAlphanum || c = '_' || c = '-')) '_'
      false q.data).take 60) ++ ".geojson"

/-- `@app.get("/api/geojson") def api_geojson()` from src/main.py: validate the
parameters, force `mode` to `sample` (an explicit non-sample mode raises), run
the locator, and wrap the feature collection as a file download;
`UserFacingError` maps to HTTP 400, anything else to HTTP 500. -/
def api_geojson (env : Env) (req : ApiRequest) : ApiResponse :=
  match validate_q req.q with
  | Except.error e => errResp400 e
  | Except.ok q =>
    match parse_query_mode req.query_mode with
    | Except.error e => errResp400 e
    | Except.ok query_mode =>
      match parse_mode (some (pyOrElse req.mode ("sample"))) with
      | Except.error e => errResp400 e
      | Except.ok mode =>
        if mode ≠ "sample" then
          errResp400 ⟨"GeoJSON ist nur im sample-Modus verfuegbar.",
            some ("mode=sample setzen.")⟩
        else
          match (if query_mode = "radius" then
              (parse_radius_km (req.radius_km.getD (RadiusRaw.numVal 2))).map some
            else Except.ok none) with
          | Except.error e => errResp400 e
          | Except.ok radius_km =>
            match parse_limit req.limit (min SAMPLE_DEFAULT 500) with
            | Except.error e => errResp400 e
            | Except.ok limit =>
              match run_tree_locator env q query_mode radius_km ("sample") limit with
              | Except.error (PyError.user e) => errResp400 e
              | Except.error PyError.internal => errResp500
              | Except.ok result =>
                ⟨200, ApiBody.fileBody
                  (geojson_featurecollection result.sample result.boundary_geojson)
                  (geojson_filename q)⟩

/-- Fixture: a geocode result whose entity is an administrative relation. -/
def geoA : GeocodeResult :=
  ⟨"aa", "Aville", 49, 8, "relation", 41, none⟩

/-- Fixture: a geocode result whose entity is a node (point-type). -/
def geoC : GeocodeResult :=
  ⟨"bb", "Bville", 49, 8, "node", 7, none⟩

/-- Fixture: an Overpass count response reporting a total of 7. -/
def respCount7 : OverpassResponse :=
  ⟨[⟨"count", none, none, none, some 7⟩]⟩

/-- Fixture: the elements of an Overpass sample response with two tree nodes. -/
def sampleElemsA : List OsmElement :=
  [⟨"node", some 49, some 8, some 1, none⟩, ⟨"node", some 50, some 9, some 2, none⟩]

/-- Fixture: an Overpass sample response with two tree nodes. -/
def respSampleA : OverpassResponse :=
  ⟨sampleElemsA⟩

/-- Fixture environment: geocoding resolves to a relation, every count reports
7, every sample returns the same two nodes. -/
def envA : Env where
  geocode := fun _ => Except.ok geoA
  countAreaResp := fun _ => Except.ok respCount7
  countRadiusResp := fun _ _ _ => Except.ok respCount7
  sampleAreaResp := fun _ _ => Except.ok respSampleA
  sampleRadiusResp := fun _ _ _ _ => Except.ok respSampleA

/-- Fixture environment: like `envA` but geocoding resolves to a node. -/
def envC : Env where
  geocode := fun _ => Except.ok geoC
  countAreaResp := fun _ => Except.ok respCount7
  countRadiusResp := fun _ _ _ => Except.ok respCount7
  sampleAreaResp := fun _ _ => Except.ok respSampleA
  sampleRadiusResp := fun _ _ _ _ => Except.ok respSampleA

/-- Fixture environment: like `envA` but the spatial service honours the
requested element limit on sample queries. -/
def envH : Env where
  geocode := fun _ => Except.ok geoA
  countAreaResp := fun _ => Except.ok respCount7
  countRadiusResp := fun _ _ _ => Except.ok respCount7
  sampleAreaResp := fun _ l =>
    if l < 0 then Except.error ⟨"bad limit", none⟩
    else Except.ok ⟨sampleElemsA.take l.toNat⟩
  sampleRadiusResp := fun _ _ _ l =>
    if l < 0 then Except.error ⟨"bad limit", none⟩
    else Except.ok ⟨sampleElemsA.take l.toNat⟩

/-- Fixture: the result of `run_tree_locator envA "aa" "boundary" none "count" 500`. -/
def resA : SearchResult where
  ok := true
  query := ⟨"aa", "Aville", 49, 8, "boundary", "count", none, none⟩
  tree_count := 7
  sample := []
  boundary_geojson := none
  attribution_text := attributionText
  attribution_license_url := licenseUrl
  timing_ms := 0

/-- Fixture: the result of `run_tree_locator envA "aa" "boundary" none "sample" 10`. -/
def resB : SearchResult where
  ok := true
  query := ⟨"aa", "Aville", 49, 8, "boundary", "sample", none, some 10⟩
  tree_count := 7
  sample := [⟨49, 8, some 1⟩, ⟨50, 9, some 2⟩]
  boundary_geojson := none
  attribution_text := attributionText
  attribution_license_url := licenseUrl
  timing_ms := 0

/-- Fixture: the result of `run_tree_locator envC "bb" "boundary" none "count" 500`
(boundary silently falls back to radius mode with the 2 km default). -/
def resC : SearchResult where
  ok := true
  query := ⟨"bb", "Bville", 49, 8, "radius", "count", some 2, none⟩
  tree_count := 7
  sample := []
  boundary_geojson := none
  attribution_text := attributionText
  attribution_license_url := licenseUrl
  timing_ms := 0

/-- Fixture: a `/api/geojson` request that explicitly passes `mode=count`. -/
def reqCount : ApiRequest :=
  ⟨"Darmstadt", none, some ("count"), none, none⟩

theorem pyIntOfOption_ok {x : Option Int} {v : Int}
    (h : pyIntOfOption x = Except.ok v) : x = some v := by
  cases x with
  | none => exact Except.noConfusion h
  | some a => simp [pyIntOfOption] at h; simp [h]

/-- Full inversion of a successful `fetch_count_sample` call: which upstream
calls were made, and how `tree_count` and `sample` were obtained. -/
theorem fetch_count_sample_ok_elim {env : Env} {geo : GeocodeResult}
    {um mode : String} {aid rm : Option Int} {limit c : Int} {s : List TreePoint}
    (h : fetch_count_sample env geo um aid rm mode limit = Except.ok (c, s)) :
    (mode = "count" ∧ s = [] ∧
      ((um = "boundary" ∧ ∃ a, aid = some a ∧
          overpass_count_by_area env a = Except.ok c) ∨
       (um ≠ "boundary" ∧ ∃ m, rm = some m ∧
          overpass_count_by_radius env geo.lat geo.lon m = Except.ok c))) ∨
    (mode ≠ "count" ∧ limit ≤ SAMPLE_MAX ∧
      ((um = "boundary" ∧ ∃ a, aid = some a ∧
          overpass_count_by_area env a = Except.ok c ∧
          ((200000 < c ∧ s = []) ∨
           (c ≤ 200000 ∧ overpass_sample_by_area env a limit = Except.ok s))) ∨
       (um ≠ "boundary" ∧ ∃ m, rm = some m ∧
          overpass_count_by_radius env geo.lat geo.lon m = Except.ok c ∧
          ((200000 < c ∧ s = []) ∨
           (c ≤ 200000 ∧
             overpass_sample_by_radius env geo.lat geo.lon m limit = Except.ok s))))) := by
  unfold fetch_count_sample at h
  by_cases hm : mode = "count"
  · rw [if_pos hm] at h
    left
    by_cases hb : um = "boundary"
    · rw [if_pos hb] at h
      cases haid : pyIntOfOption aid with
      | error e => rw [haid] at h; exact Except.noConfusion h
      | ok a =>
        simp only [haid] at h
        cases hc : overpass_count_by_area env a with
        | error e => simp only [hc] at h; exact Except.noConfusion h
        | ok c2 =>
          simp only [hc, Except.ok.injEq, Prod.mk.injEq] at h
          obtain ⟨h1, h2⟩ := h
          exact ⟨hm, h2.symm, Or.inl ⟨hb, a, pyIntOfOption_ok haid, h1 ▸ hc⟩⟩
    · rw [if_neg hb] at h
      cases hrm : pyIntOfOption rm with
      | error e => rw [hrm] at h; exact Except.noConfusion h
      | ok m =>
        simp only [hrm] at h
        cases hc : overpass_count_by_radius env geo.lat geo.lon m with
        | error e => simp only [hc] at h; exact Except.noConfusion h
        | ok c2 =>
          simp only [hc, Except.ok.injEq, Prod.mk.injEq] at h
          obtain ⟨h1, h2⟩ := h
          exact ⟨hm, h2.symm, Or.inr ⟨hb, m, pyIntOfOption_ok hrm, h1 ▸ hc⟩⟩
  · rw [if_neg hm] at h
    right
    by_cases hlim : limit > SAMPLE_MAX
    · rw [if_pos hlim] at h; exact Except.noConfusion h
    · rw [if_neg hlim] at h
      refine ⟨hm, by omega, ?_⟩
      by_cases hb : um = "boundary"
      · rw [if_pos hb] at h
        cases haid : pyIntOfOption aid with
        | error e => rw [haid] at h; exact Except.noConfusion h
        | ok a =>
          simp only [haid] at h
          cases hc : overpass_count_by_area env a with
          | error e => simp only [hc] at h; exact Except.noConfusion h
          | ok c2 =>
            simp only [hc] at h
            by_cases hbig : c2 > 200000
            · rw [if_pos hbig] at h
              simp only [Except.ok.injEq, Prod.mk.injEq] at h
              obtain ⟨h1, h2⟩ := h
              subst h1
              exact Or.inl ⟨hb, a, pyIntOfOption_ok haid, hc, Or.inl ⟨hbig, h2.symm⟩⟩
            · rw [if_neg hbig] at h
              cases hs : overpass_sample_by_area env a limit with
              | error e => simp only [hs] at h; exact Except.noConfusion h
              | ok s2 =>
                simp only [hs, Except.ok.injEq, Prod.mk.injEq] at h
                obtain ⟨h1, h2⟩ := h
                subst h1; subst h2
                exact Or.inl ⟨hb, a, pyIntOfOption_ok haid, hc, Or.inr ⟨by omega, hs⟩⟩
      · rw [if_neg hb] at h
        cases hrm : pyIntOfOption rm with
        | error e => rw [hrm] at h; exact Except.noConfusion h
        | ok m =>
          simp only [hrm] at h
          cases hc : overpass_count_by_radius env geo.lat geo.lon m with
          | error e => simp only [hc] at h; exact Except.noConfusion h
          | ok c2 =>
            simp only [hc] at h
            by_cases hbig : c2 > 200000
            · rw [if_pos hbig] at h
              simp only [Except.ok.injEq, Prod.mk.injEq] at h
              obtain ⟨h1, h2⟩ := h
              subst h1
              exact Or.inr ⟨hb, m, pyIntOfOption_ok hrm, hc, Or.inl ⟨hbig, h2.symm⟩⟩
            · rw [if_neg hbig] at h
              cases hs : overpass_sample_by_radius env geo.lat geo.lon m limit with
              | error e => simp only [hs] at h; exact Except.noConfusion h
              | ok s2 =>
                simp only [hs, Except.ok.injEq, Prod.mk.injEq] at h
                obtain ⟨h1, h2⟩ := h
                subst h1; subst h2
                exact Or.inr ⟨hb, m, pyIntOfOption_ok hrm, hc, Or.inr ⟨by omega, hs⟩⟩

/-- Full inversion of a successful `run_tree_locator` call. -/
theorem run_tree_locator_ok_elim {env : Env} {q qm mode : String} {rkm : Option ℚ}
    {limit : Int} {res : SearchResult}
    (h : run_tree_locator env q qm rkm mode limit = Except.ok res) :
    ∃ geo c s,
      env.geocode q = Except.ok geo ∧
      fetch_count_sample env geo (used_query_mode qm geo) (effective_area_id qm geo)
        (effective_radius_m qm geo rkm) mode limit = Except.ok (c, s) ∧
      res = { ok := true
              query := { q := geo.q, display_name := geo.display_name, lat := geo.lat,
                         lon := geo.lon, query_mode := used_query_mode qm geo,
                         mode := mode, radius_km := effective_radius_km qm geo rkm,
                         limit := if mode = "sample" then some limit else none }
              tree_count := c
              sample := s
              boundary_geojson := geo.geojson
              attribution_text := attributionText
              attribution_license_url := licenseUrl
              timing_ms := 0 } := by
  unfold run_tree_locator at h
  cases hg : env.geocode q with
  | error e => rw [hg] at h; exact Except.noConfusion h
  | ok geo =>
    simp only [hg] at h
    cases hf : fetch_count_sample env geo (used_query_mode qm geo)
        (effective_area_id qm geo) (effective_radius_m qm geo rkm) mode limit with
    | error e => simp only [hf] at h; exact Except.noConfusion h
    | ok cs =>
      obtain ⟨c, s⟩ := cs
      simp only [hf, Except.ok.injEq] at h
      exact ⟨geo, c, s, rfl, hf, h.symm⟩

/-- C2: for every request with mode = "count" — whatever the query mode, radius,
geocode result or upstream count — a Search Result produced by
`run_tree_locator` has an empty sample. -/
theorem run_tree_locator_count_sample_empty (env : Env) (q qm : String)
    (rkm : Option ℚ) (limit : Int) (res : SearchResult)
    (h : run_tree_locator env q qm rkm ("count") limit = Except.ok res) :
    res.sample = [] := by
  obtain ⟨geo, c, s, hg, hf, hres⟩ := run_tree_locator_ok_elim h
  rcases fetch_count_sample_ok_elim hf with ⟨_, hs, _⟩ | ⟨hm, _⟩
  · rw [hres]; exact hs
  · exact absurd rfl hm

/-- C2 witness: a concrete count-mode run through `envA` has an empty sample. -/
theorem run_tree_locator_count_sample_empty_witness : resA.sample = [] :=
  run_tree_locator_count_sample_empty envA ("aa") ("boundary") none 500 resA (by decide)

/-- C4 counterexample: the entity kind `"Relation"` is a string other than
`"relation"` and `"way"`, yet `_area_id_from_osm` derives an area reference for
it (the source lowercases the kind first), so the claim as stated is false. -/
theorem area_id_from_osm_mixed_case_cex :
    ("Relation" : String) ≠ ("relation" : String) ∧
    ("Relation" : String) ≠ ("way" : String) ∧
    _area_id_from_osm ("Relation") 1 = some (3600000000 + 1) := by
  decide

/-- C4 (amended): after lowercasing the entity kind, `relation` yields exactly
`id + 3600000000`, `way` yields exactly `id + 2400000000`, and every other
(lowercased) kind yields no area reference. -/
theorem area_id_from_osm_offsets (t : String) (osm_id : Int) :
    (pyLower t = "relation" → _area_id_from_osm t osm_id = some (3600000000 + osm_id)) ∧
    (pyLower t = "way" → _area_id_from_osm t osm_id = some (2400000000 + osm_id)) ∧
    (pyLower t ≠ "relation" → pyLower t ≠ "way" →
      _area_id_from_osm t osm_id = none) := by
  refine ⟨fun h => ?_, fun h => ?_, fun h1 h2 => ?_⟩
  · simp [_area_id_from_osm, h]
  · simp [_area_id_from_osm, h]
  · simp [_area_id_from_osm, h1, h2]

/-- C4 witness: a node-kind entity yields no area reference. -/
theorem area_id_from_osm_offsets_witness : _area_id_from_osm ("NODE") 5 = none :=
  (area_id_from_osm_offsets ("NODE") 5).2.2 (by decide) (by decide)

/-- C5: contrary to the claim (and to the source's own comment and error hint),
`validate_q` accepts the underscore: the regex class uses `\w`, which matches
`_`.  At the failing input `"a_b"` validation succeeds instead of raising. -/
theorem validate_q_accepts_underscore :
    validate_q ("a_b") = Except.ok ("a_b") := by
  decide

/-- C8: `parse_radius_km` fails for a non-numeric input and for a parsed value
outside [0.1, 50.0], and returns the parsed value unchanged inside the range. -/
theorem parse_radius_km_range (raw : RadiusRaw) :
    (raw = RadiusRaw.notANum → ∃ e, parse_radius_km raw = Except.error e) ∧
    (∀ v, raw = RadiusRaw.numVal v →
      ((v < RADIUS_MIN_KM ∨ RADIUS_MAX_KM < v) →
        ∃ e, parse_radius_km raw = Except.error e) ∧
      (RADIUS_MIN_KM ≤ v → v ≤ RADIUS_MAX_KM →
        parse_radius_km raw = Except.ok v)) := by
  refine ⟨fun h => ?_, fun v hv => ⟨fun hout => ?_, fun h1 h2 => ?_⟩⟩
  · subst h; exact ⟨_, rfl⟩
  · subst hv
    have hcond : ¬ (RADIUS_MIN_KM ≤ v ∧ v ≤ RADIUS_MAX_KM) := by
      rcases hout with h | h
      · exact fun hc => absurd hc.1 (not_le.2 h)
      · exact fun hc => absurd hc.2 (not_le.2 h)
    simp only [parse_radius_km, if_pos hcond]
    exact ⟨_, rfl⟩
  · subst hv
    simp only [parse_radius_km]
    rw [if_neg (not_not_intro ⟨h1, h2⟩)]

/-- C3: when `query_mode = "boundary"` but the geocoded entity yields no area
reference, `run_tree_locator` silently uses radius mode: the echoed
`query.query_mode` is `"radius"`, the radius is the supplied one or the 2.0 km
default, and the count is fetched at that radius converted to metres with
Python rounding (`pyRound`, round half to even — a nearest-integer rounding). -/
theorem run_tree_locator_boundary_fallback_radius (env : Env) (q : String)
    (rkm : Option ℚ) (mode : String) (limit : Int) (res : SearchResult)
    (geo : GeocodeResult)
    (hgeo : env.geocode q = Except.ok geo)
    (harea : _area_id_from_osm geo.osm_type geo.osm_id = none)
    (h : run_tree_locator env q ("boundary") rkm mode limit = Except.ok res) :
    res.query.query_mode = "radius" ∧
    res.query.radius_km = some (rkm.getD 2) ∧
    ∃ c, overpass_count_by_radius env geo.lat geo.lon
        (pyRound ((rkm.getD 2) * 1000)) = Except.ok c ∧
      res.tree_count = c := by
  obtain ⟨geo2, c, s, hg2, hf, hres⟩ := run_tree_locator_ok_elim h
  rw [hgeo] at hg2
  injection hg2 with hgeq
  subst hgeq
  have hused : used_query_mode ("boundary") geo = "radius" := by
    simp [used_query_mode, effective_area_id, harea]
  have hrm : effective_radius_m ("boundary") geo rkm =
      some (pyRound ((rkm.getD 2) * 1000)) := by
    simp [effective_radius_m, hused]
  have hrkm : effective_radius_km ("boundary") geo rkm = some (rkm.getD 2) := by
    simp [effective_radius_km, hused]
  refine ⟨by rw [hres]; exact hused, by rw [hres]; exact hrkm, ?_⟩
  rcases fetch_count_sample_ok_elim hf with ⟨hm, hs, hcase⟩ | ⟨hm, hlim, hcase⟩
  · rcases hcase with ⟨hb, _⟩ | ⟨hb, m, hm2, hcnt⟩
    · rw [hused] at hb; exact absurd hb (by decide)
    · rw [hrm] at hm2
      injection hm2 with hm3
      refine ⟨c, ?_, by rw [hres]⟩
      rw [hm3]; exact hcnt
  · rcases hcase with ⟨hb, _⟩ | ⟨hb, m, hm2, hcnt, _⟩
    · rw [hused] at hb; exact absurd hb (by decide)
    · rw [hrm] at hm2
      injection hm2 with hm3
      refine ⟨c, ?_, by rw [hres]⟩
      rw [hm3]; exact hcnt

/-- C3 witness: through `envC` (a node-type geocode hit) a boundary request
falls back to radius mode with the default 2 km. -/
theorem run_tree_locator_boundary_fallback_radius_witness :
    resC.query.query_mode = "radius" ∧ resC.query.radius_km = some 2 := by
  have h := run_tree_locator_boundary_fallback_radius envC ("bb") none ("count")
    500 resC geoC (by decide) (by decide) (by decide)
  exact ⟨h.1, h.2.1⟩

/-- C1: in sample mode, the count is fetched first via the effective spatial
shape; when it exceeds 200000 the sample is empty while `tree_count` still
carries the fetched count; otherwise the sample is fetched via the effective
shape with the supplied limit. -/
theorem run_tree_locator_sample_safeguard (env : Env) (q qm : String)
    (rkm : Option ℚ) (limit : Int) (res : SearchResult)
    (hqm : qm = "boundary" ∨ qm = "radius")
    (h : run_tree_locator env q qm rkm ("sample") limit = Except.ok res) :
    (∀ geo a, env.geocode q = Except.ok geo →
      effective_area_id qm geo = some a →
      ∃ c, overpass_count_by_area env a = Except.ok c ∧ res.tree_count = c ∧
        (200000 < c → res.sample = []) ∧
        (c ≤ 200000 → ∃ s, overpass_sample_by_area env a limit = Except.ok s ∧
          res.sample = s)) ∧
    (∀ geo, env.geocode q = Except.ok geo →
      effective_area_id qm geo = none →
      ∃ c, overpass_count_by_radius env geo.lat geo.lon
          (pyRound ((rkm.getD 2) * 1000)) = Except.ok c ∧ res.tree_count = c ∧
        (200000 < c → res.sample = []) ∧
        (c ≤ 200000 → ∃ s, overpass_sample_by_radius env geo.lat geo.lon
            (pyRound ((rkm.getD 2) * 1000)) limit = Except.ok s ∧
          res.sample = s)) := by
  obtain ⟨geo2, c, s, hg2, hf, hres⟩ := run_tree_locator_ok_elim h
  constructor
  · intro geo a hg ha
    rw [hg] at hg2
    injection hg2 with hgeq
    subst hgeq
    have hqmb : qm = "boundary" := by
      rcases hqm with h1 | h1
      · exact h1
      · rw [h1] at ha; simp [effective_area_id] at ha
    subst hqmb
    have hused : used_query_mode ("boundary") geo = "boundary" := by
      simp [used_query_mode, ha]
    rcases fetch_count_sample_ok_elim hf with ⟨hm, _, _⟩ | ⟨hm, hlim, hcase⟩
    · exact absurd hm (by decide)
    · rcases hcase with ⟨hb, a2, ha2, hcnt, hsam⟩ | ⟨hb, _⟩
      · rw [ha] at ha2
        injection ha2 with ha3
        subst ha3
        refine ⟨c, hcnt, by rw [hres], ?_, ?_⟩
        · intro hbig
          rcases hsam with ⟨_, hs⟩ | ⟨hle, _⟩
          · rw [hres]; exact hs
          · omega
        · intro hle
          rcases hsam with ⟨hbig, _⟩ | ⟨_, hs⟩
          · omega
          · exact ⟨s, hs, by rw [hres]⟩
      · rw [hused] at hb; exact absurd rfl hb
  · intro geo hg ha
    rw [hg] at hg2
    injection hg2 with hgeq
    subst hgeq
    have hused : used_query_mode qm geo = "radius" := by
      rcases hqm with h1 | h1 <;> subst h1 <;> simp [used_query_mode, ha]
    have hrm : effective_radius_m qm geo rkm =
        some (pyRound ((rkm.getD 2) * 1000)) := by
      simp [effective_radius_m, hused]
    rcases fetch_count_sample_ok_elim hf with ⟨hm, _, _⟩ | ⟨hm, hlim, hcase⟩
    · exact absurd hm (by decide)
    · rcases hcase with ⟨hb, _⟩ | ⟨hb, m, hm2, hcnt, hsam⟩
      · rw [hused] at hb; exact absurd hb (by decide)
      · rw [hrm] at hm2
        injection hm2 with hm3
        subst hm3
        refine ⟨c, hcnt, by rw [hres], ?_, ?_⟩
        · intro hbig
          rcases hsam with ⟨_, hs⟩ | ⟨hle, _⟩
          · rw [hres]; exact hs
          · omega
        · intro hle
          rcases hsam with ⟨hbig, _⟩ | ⟨_, hs⟩
          · omega
          · exact ⟨s, hs, by rw [hres]⟩

/-- C1 witness: through `envA` (count 7, below the safeguard) the sample is the
two fetched points and the count is reported. -/
theorem run_tree_locator_sample_safeguard_witness :
    resB.tree_count = 7 ∧ resB.sample = [⟨49, 8, some 1⟩, ⟨50, 9, some 2⟩] := by
  have h := (run_tree_locator_sample_safeguard envA ("aa") ("boundary") none 10
    resB (Or.inl rfl) (by decide)).1 geoA 3600000041 (by decide) (by decide)
  obtain ⟨c, hc, ht, hbig, hsmall⟩ := h
  have hc7 : overpass_count_by_area envA 3600000041 = Except.ok 7 := by decide
  rw [hc7] at hc
  injection hc with hceq
  subst hceq
  obtain ⟨s, hs, hss⟩ := hsmall (by omega)
  have hsv : overpass_sample_by_area envA 3600000041 10 =
      Except.ok [(⟨49, 8, some 1⟩ : TreePoint), ⟨50, 9, some 2⟩] := by decide
  rw [hsv] at hs
  injection hs with hseq
  subst hseq
  exact ⟨ht, hss⟩

/-- C6 counterexample: a count-mode request produces a Search Result whose
sample has size 0, so the size is not within [1, 2000] as claimed. -/
theorem run_tree_locator_sample_size_cex :
    (run_tree_locator envA ("aa") ("boundary") none ("count") 500).toOption.map
      (fun r => decide (1 ≤ r.sample.length ∧ r.sample.length ≤ 2000)) =
      some false := by
  decide

theorem foldl_step_length_le {α β : Type} (f : List β → α → List β)
    (hf : ∀ acc a, (f acc a).length ≤ acc.length + 1) :
    ∀ (l : List α) (acc : List β), (l.foldl f acc).length ≤ acc.length + l.length := by
  intro l
  induction l with
  | nil => intro acc; simp
  | cons a t ih =>
    intro acc
    have h1 := ih (f acc a)
    have h2 := hf acc a
    simp only [List.foldl_cons, List.length_cons]
    omega

/-- The sample loop keeps at most one point per response element. -/
theorem extractTreePoints_length_le (resp : OverpassResponse) :
    (extractTreePoints resp).length ≤ resp.elements.length := by
  have h := foldl_step_length_le
    (fun out el =>
      if el.type ≠ "node" then out
      else
        match el.lat, el.lon with
        | some la, some lo => out ++ [(⟨la, lo, el.id⟩ : TreePoint)]
        | _, _ => out)
    (by
      intro acc el
      by_cases ht : el.type ≠ "node"
      · simp [ht]
      · simp only [ht, if_false]
        cases el.lat <;> cases el.lon <;> simp)
    resp.elements []
  simpa [extractTreePoints] using h

theorem overpass_sample_by_area_ok {env : Env} {a limit : Int} {s : List TreePoint}
    (h : overpass_sample_by_area env a limit = Except.ok s) :
    ∃ data, env.sampleAreaResp a limit = Except.ok data ∧
      s = extractTreePoints data := by
  unfold overpass_sample_by_area at h
  cases hd : env.sampleAreaResp a limit with
  | error e => rw [hd] at h; exact Except.noConfusion h
  | ok data =>
    simp only [hd, Except.ok.injEq] at h
    exact ⟨data, rfl, h.symm⟩

theorem overpass_sample_by_radius_ok {env : Env} {la lo : ℚ} {m limit : Int}
    {s : List TreePoint}
    (h : overpass_sample_by_radius env la lo m limit = Except.ok s) :
    ∃ data, env.sampleRadiusResp la lo m limit = Except.ok data ∧
      s = extractTreePoints data := by
  unfold overpass_sample_by_radius at h
  cases hd : env.sampleRadiusResp la lo m limit with
  | error e => rw [hd] at h; exact Except.noConfusion h
  | ok data =>
    simp only [hd, Except.ok.injEq] at h
    exact ⟨data, rfl, h.symm⟩

/-- C6 (amended): every Search Result's sample has size within [0, SAMPLE_MAX]
(it is empty in count mode and may be empty in sample mode), provided each
upstream sample response holds at most the requested number of elements — the
request's limit, which `run_tree_locator` validates against SAMPLE_MAX. -/
theorem run_tree_locator_sample_size_bound (env : Env) (q qm : String)
    (rkm : Option ℚ) (mode : String) (limit : Int) (res : SearchResult)
    (hA : ∀ a l resp, env.sampleAreaResp a l = Except.ok resp →
      (resp.elements.length : Int) ≤ l)
    (hR : ∀ la lo m l resp, env.sampleRadiusResp la lo m l = Except.ok resp →
      (resp.elements.length : Int) ≤ l)
    (h : run_tree_locator env q qm rkm mode limit = Except.ok res) :
    (res.sample.length : Int) ≤ SAMPLE_MAX := by
  obtain ⟨geo, c, s, hg, hf, hres⟩ := run_tree_locator_ok_elim h
  have hs : (s.length : Int) ≤ SAMPLE_MAX := by
    rcases fetch_count_sample_ok_elim hf with ⟨_, hs0, _⟩ | ⟨_, hlim, hcase⟩
    · subst hs0; simp [SAMPLE_MAX]
    · rcases hcase with ⟨_, a, _, _, hsam⟩ | ⟨_, m, _, _, hsam⟩
      · rcases hsam with ⟨_, hs0⟩ | ⟨_, hfetch⟩
        · subst hs0; simp [SAMPLE_MAX]
        · obtain ⟨data, hdata, hsd⟩ := overpass_sample_by_area_ok hfetch
          have h1 := hA _ _ _ hdata
          have h2 := extractTreePoints_length_le data
          subst hsd
          have h3 : (Int.ofNat (extractTreePoints data).length) ≤
              Int.ofNat data.elements.length := Int.ofNat_le.2 h2
          omega
      · rcases hsam with ⟨_, hs0⟩ | ⟨_, hfetch⟩
        · subst hs0; simp [SAMPLE_MAX]
        · obtain ⟨data, hdata, hsd⟩ := overpass_sample_by_radius_ok hfetch
          have h1 := hR _ _ _ _ _ hdata
          have h2 := extractTreePoints_length_le data
          subst hsd
          have h3 : (Int.ofNat (extractTreePoints data).length) ≤
              Int.ofNat data.elements.length := Int.ofNat_le.2 h2
          omega
  rw [hres]
  exact hs

theorem envH_sampleArea_le (a l : Int) (resp : OverpassResponse)
    (h : envH.sampleAreaResp a l = Except.ok resp) :
    (resp.elements.length : Int) ≤ l := by
  unfold envH at h
  dsimp only at h
  split at h
  · exact Except.noConfusion h
  · injection h with hr
    subst hr
    simp only [List.length_take]
    rename_i hneg
    simp only [sampleElemsA, List.length_cons, List.length_nil]
    omega

theorem envH_sampleRadius_le (la lo : ℚ) (m l : Int) (resp : OverpassResponse)
    (h : envH.sampleRadiusResp la lo m l = Except.ok resp) :
    (resp.elements.length : Int) ≤ l := by
  unfold envH at h
  dsimp only at h
  split at h
  · exact Except.noConfusion h
  · injection h with hr
    subst hr
    simp only [List.length_take]
    rename_i hneg
    simp only [sampleElemsA, List.length_cons, List.length_nil]
    omega

/-- C6 witness: through `envH` (a limit-honouring spatial service) a sample-mode
run's sample size is within the bound. -/
theorem run_tree_locator_sample_size_bound_witness :
    (resB.sample.length : Int) ≤ SAMPLE_MAX :=
  run_tree_locator_sample_size_bound envH ("aa") ("boundary") none ("sample") 10
    resB (fun a l resp h => envH_sampleArea_le a l resp h)
    (fun la lo m l resp h => envH_sampleRadius_le la lo m l resp h)
    (by decide)

/-- When the request explicitly carries `mode=count`, `api_geojson` evaluates to
an error response that does not depend on the environment: the handler stops at
input validation or at the mode check, before any upstream call. -/
theorem api_geojson_count_eval (env : Env) (req : ApiRequest)
    (hmode : req.mode = some ("count")) :
    api_geojson env req =
      match validate_q req.q with
      | Except.error e => errResp400 e
      | Except.ok _ =>
        match parse_query_mode req.query_mode with
        | Except.error e => errResp400 e
        | Except.ok _ =>
          errResp400 ⟨"GeoJSON ist nur im sample-Modus verfuegbar.",
            some ("mode=sample setzen.")⟩ := by
  unfold api_geojson
  rw [hmode]
  cases validate_q req.q with
  | error e => rfl
  | ok q =>
    cases parse_query_mode req.query_mode with
    | error e => rfl
    | ok qm => rfl

/-- C9: a request to `/api/geojson` that explicitly passes `mode=count` yields
an error payload with `ok:false` and HTTP status 400, and no orchestration is
performed: the response is the same under every environment (no geocoding or
spatial call can influence it). -/
theorem api_geojson_count_mode_rejected (env env2 : Env) (req : ApiRequest)
    (hmode : req.mode = some ("count")) :
    (api_geojson env req).status = 400 ∧
    (∃ msg hint, (api_geojson env req).body = ApiBody.errorBody false msg hint) ∧
    api_geojson env req = api_geojson env2 req := by
  have h1 := api_geojson_count_eval env req hmode
  have h2 := api_geojson_count_eval env2 req hmode
  refine ⟨?_, ?_, h1.trans h2.symm⟩
  · rw [h1]
    cases validate_q req.q with
    | error e => rfl
    | ok q =>
      cases parse_query_mode req.query_mode with
      | error e => rfl
      | ok qm => rfl
  · rw [h1]
    cases validate_q req.q with
    | error e => exact ⟨e.message, e.hint, rfl⟩
    | ok q =>
      cases parse_query_mode req.query_mode with
      | error e => exact ⟨e.message, e.hint, rfl⟩
      | ok qm => exact ⟨_, _, rfl⟩

/-- C9 witness: a concrete `mode=count` request is rejected with 400 and the
response does not depend on the environment. -/
theorem api_geojson_count_mode_rejected_witness :
    (api_geojson envA reqCount).status = 400 ∧
    api_geojson envA reqCount = api_geojson envC reqCount := by
  have h := api_geojson_count_mode_rejected envA envC reqCount (by decide)
  exact ⟨h.1, h.2.2⟩

theorem foldl_append_map {α β : Type} (f : α → β) :
    ∀ (l : List α) (acc : List β),
      l.foldl (fun acc2 p => acc2 ++ [f p]) acc = acc ++ l.map f := by
  intro l
  induction l with
  | nil => intro acc; simp
  | cons a t ih =>
    intro acc
    simp only [List.foldl_cons, List.map_cons, ih, List.append_assoc,
      List.singleton_append]

/-- C10: the feature collection carries the attribution string; its features
are one tree feature per sample point, preceded by exactly one boundary feature
when a boundary geometry is present; so the feature count equals the point
count plus one exactly when a boundary is present. -/
theorem geojson_featurecollection_shape (points : List TreePoint)
    (b : Option BoundaryGeo) :
    (geojson_featurecollection points b).props_attribution = attributionText ∧
    ((geojson_featurecollection points b).features.drop
        (if b.isSome then 1 else 0) = points.map treeFeature) ∧
    (∀ g, b = some g →
      (geojson_featurecollection points b).features.take 1 =
        [⟨"Feature", ⟨"boundary", none⟩, FeatGeometry.passthrough g⟩]) ∧
    ((geojson_featurecollection points b).features.length = points.length + 1 ↔
      b.isSome = true) := by
  cases b with
  | none =>
    refine ⟨rfl, ?_, ?_, ?_⟩
    · simp [geojson_featurecollection, foldl_append_map]
    · intro g hg; exact Option.noConfusion hg
    · simp only [geojson_featurecollection, foldl_append_map, Option.isSome_none,
        List.nil_append, List.length_map]
      constructor
      · intro hlen; omega
      · intro hb; exact Bool.noConfusion hb
  | some g =>
    refine ⟨rfl, ?_, ?_, ?_⟩
    · simp [geojson_featurecollection, foldl_append_map]
    · intro g2 hg2
      injection hg2 with hge
      subst hge
      simp [geojson_featurecollection, foldl_append_map]
    · simp [geojson_featurecollection, foldl_append_map]

/-- C10 witness: with a boundary present, the leading feature is the boundary
feature. -/
theorem geojson_featurecollection_shape_witness :
    (geojson_featurecollection [⟨49, 8, some 1⟩] (some ⟨"poly"⟩)).features.take 1 =
      [⟨"Feature", ⟨"boundary", none⟩, FeatGeometry.passthrough ⟨"poly"⟩⟩] :=
  (geojson_featurecollection_shape [⟨49, 8, some 1⟩]
    (some ⟨"poly"⟩)).2.2.1 ⟨"poly"⟩ rfl

/-- C8 witness: a radius of 2 km is inside the range and returned unchanged. -/
theorem parse_radius_km_range_witness :
    parse_radius_km (RadiusRaw.numVal 2) = Except.ok 2 :=
  ((parse_radius_km_range (RadiusRaw.numVal 2)).2 2 rfl).2
    (by norm_num [RADIUS_MIN_KM]) (by norm_num [RADIUS_MAX_KM])

theorem dropWhile_head_not_ws (l : List Char) :
    ∀ c, (List.dropWhile pyIsSpace l).head? = some c → pyIsSpace c = false := by
  induction l with
  | nil => intro c h; exact Option.noConfusion h
  | cons a t ih =>
    intro c h
    by_cases ha : pyIsSpace a = true
    · rw [List.dropWhile_cons, if_pos ha] at h
      exact ih c h
    · rw [List.dropWhile_cons, if_neg ha] at h
      injection h with h2
      subst h2
      exact eq_false_of_ne_true ha

theorem dropWhile_eq_self_of_head (l : List Char)
    (h : ∀ c, l.head? = some c → pyIsSpace c = false) :
    List.dropWhile pyIsSpace l = l := by
  cases l with
  | nil => rfl
  | cons a t =>
    have ha := h a rfl
    rw [List.dropWhile_cons, if_neg (by simp [ha])]

theorem dropWhile_prefix_ex (l : List Char) :
    ∃ pre, pre ++ List.dropWhile pyIsSpace l = l := by
  induction l with
  | nil => exact ⟨[], rfl⟩
  | cons a t ih =>
    by_cases ha : pyIsSpace a = true
    · obtain ⟨pre, hpre⟩ := ih
      refine ⟨a :: pre, ?_⟩
      rw [List.dropWhile_cons, if_pos ha, List.cons_append, hpre]
    · refine ⟨[], ?_⟩
      rw [List.dropWhile_cons, if_neg ha, List.nil_append]

theorem subRunsGo_false_ne_nil (p : Char → Bool) (rep : Char) (a : Char)
    (t : List Char) : subRunsGo p rep false (a :: t) ≠ [] := by
  unfold subRunsGo
  by_cases ha : p a = true
  · simp [ha]
  · simp [ha]

theorem subRunsGo_true_nil_all (p : Char → Bool) (rep : Char) :
    ∀ l, subRunsGo p rep true l = [] → ∀ c ∈ l, p c = true := by
  intro l
  induction l with
  | nil => intro _ c hc; exact absurd hc (List.not_mem_nil c)
  | cons a t ih =>
    intro h c hc
    unfold subRunsGo at h
    by_cases ha : p a = true
    · rw [if_pos ha, if_pos rfl] at h
      rcases List.mem_cons.1 hc with h1 | h1
      · subst h1; exact ha
      · exact ih h c h1
    · rw [if_neg ha] at h
      exact absurd h (by simp)

theorem subRunsGo_head_not (p : Char → Bool) (rep : Char) (l : List Char)
    (h : ∀ c, l.head? = some c → p c = false) (b : Bool) :
    ∀ c, (subRunsGo p rep b l).head? = some c → p c = false := by
  cases l with
  | nil => intro c hc; exact Option.noConfusion hc
  | cons a t =>
    intro c hc
    have ha := h a rfl
    unfold subRunsGo at hc
    rw [if_neg (by simp [ha])] at hc
    injection hc with hc2
    subst hc2
    exact ha

theorem subRunsGo_last_not (p : Char → Bool) (rep : Char) (l : List Char) :
    (∀ c, l.reverse.head? = some c → p c = false) → ∀ b,
      ∀ c, (subRunsGo p rep b l).reverse.head? = some c → p c = false := by
  induction l with
  | nil =>
    intro _ b c hc
    exact Option.noConfusion hc
  | cons a t ih =>
    intro hlast b c hc
    cases t with
    | nil =>
      have ha : p a = false := hlast a rfl
      unfold subRunsGo at hc
      rw [if_neg (by simp [ha])] at hc
      simp only [subRunsGo, List.reverse_cons, List.reverse_nil,
        List.nil_append, List.head?] at hc
      injection hc with hc2
      subst hc2
      exact ha
    | cons a2 t2 =>
      have htne : (a2 :: t2).reverse ≠ [] := by
        simp
      have hlast_t : ∀ c, (a2 :: t2).reverse.head? = some c → p c = false := by
        intro c2 hc2
        apply hlast c2
        rw [List.reverse_cons, List.head?_append_of_ne_nil _ htne]
        exact hc2
      unfold subRunsGo at hc
      by_cases ha : p a = true
      · rw [if_pos ha] at hc
        by_cases hb : b = true
        · rw [hb, if_pos rfl] at hc
          exact ih hlast_t true c hc
        · rw [Bool.not_eq_true] at hb
          rw [hb, if_neg (by simp)] at hc
          have hXne : subRunsGo p rep true (a2 :: t2) ≠ [] := by
            intro hX
            have hall := subRunsGo_true_nil_all p rep (a2 :: t2) hX
            obtain ⟨d, hd⟩ : ∃ d, (a2 :: t2).reverse.head? = some d := by
              cases hrev : (a2 :: t2).reverse with
              | nil => exact absurd hrev htne
              | cons x xs => exact ⟨x, rfl⟩
            have hdf : p d = false := hlast_t d hd
            have hdm : d ∈ (a2 :: t2).reverse := by
              cases hrev : (a2 :: t2).reverse with
              | nil => exact absurd hrev htne
              | cons x xs =>
                rw [hrev] at hd
                injection hd with hd2
                subst hd2
                exact List.mem_cons_self x xs
            have := hall d (List.mem_reverse.1 hdm)
            rw [this] at hdf
            exact Bool.noConfusion hdf
          rw [List.reverse_cons,
            List.head?_append_of_ne_nil _ (by simpa using hXne)] at hc
          exact ih hlast_t true c hc
      · rw [if_neg ha] at hc
        have hXne : subRunsGo p rep false (a2 :: t2) ≠ [] :=
          subRunsGo_false_ne_nil p rep a2 t2
        rw [List.reverse_cons,
          List.head?_append_of_ne_nil _ (by simpa using hXne)] at hc
        exact ih hlast_t false c hc

theorem subRunsGo_cons (p : Char → Bool) (rep : Char) (b : Bool) (a : Char)
    (t : List Char) :
    subRunsGo p rep b (a :: t) =
      if p a then
        (if b then subRunsGo p rep true t else rep :: subRunsGo p rep true t)
      else a :: subRunsGo p rep false t := rfl

theorem subRunsGo_idem (p : Char → Bool) (rep : Char) (hrep : p rep = true) :
    ∀ l b, subRunsGo p rep b (subRunsGo p rep b l) = subRunsGo p rep b l := by
  intro l
  induction l with
  | nil => intro b; rfl
  | cons a t ih =>
    intro b
    by_cases ha : p a = true
    · by_cases hb : b = true
      · subst hb
        rw [subRunsGo_cons, if_pos ha, if_pos rfl]
        exact ih true
      · rw [Bool.not_eq_true] at hb
        subst hb
        rw [subRunsGo_cons, if_pos ha, if_neg (by simp)]
        rw [subRunsGo_cons, if_pos hrep, if_neg (by simp)]
        rw [ih true]
    · rw [subRunsGo_cons, if_neg (by simp [ha])]
      rw [subRunsGo_cons, if_neg (by simp [ha])]
      rw [ih false]

theorem pyStrip_head_not_ws (l : List Char) :
    ∀ c, (pyStrip l).head? = some c → pyIsSpace c = false := by
  intro c hc
  obtain ⟨pre, hpre⟩ := dropWhile_prefix_ex (List.dropWhile pyIsSpace l).reverse
  have hxeq : List.dropWhile pyIsSpace l =
      (List.dropWhile pyIsSpace (List.dropWhile pyIsSpace l).reverse).reverse ++
        pre.reverse := by
    have h1 := congrArg List.reverse hpre
    rw [List.reverse_append, List.reverse_reverse] at h1
    exact h1.symm
  unfold pyStrip dropTrailingWS at hc
  have hne :
      (List.dropWhile pyIsSpace (List.dropWhile pyIsSpace l).reverse).reverse ≠ [] := by
    intro h0
    rw [h0] at hc
    exact Option.noConfusion hc
  have hxh : (List.dropWhile pyIsSpace l).head? = some c := by
    rw [hxeq, List.head?_append_of_ne_nil _ hne]
    exact hc
  exact dropWhile_head_not_ws l c hxh

theorem pyStrip_last_not_ws (l : List Char) :
    ∀ c, (pyStrip l).reverse.head? = some c → pyIsSpace c = false := by
  intro c hc
  unfold pyStrip dropTrailingWS at hc
  rw [List.reverse_reverse] at hc
  exact dropWhile_head_not_ws (List.dropWhile pyIsSpace l).reverse c hc

theorem pyStrip_eq_self (t : List Char)
    (hh : ∀ c, t.head? = some c → pyIsSpace c = false)
    (hl : ∀ c, t.reverse.head? = some c → pyIsSpace c = false) :
    pyStrip t = t := by
  unfold pyStrip dropTrailingWS
  rw [dropWhile_eq_self_of_head t hh, dropWhile_eq_self_of_head t.reverse hl]
  exact List.reverse_reverse t

/-- `_norm_q` is idempotent at the character-list level. -/
theorem normQList_idem (l : List Char) : normQList (normQList l) = normQList l := by
  have hh : ∀ c, (normQList l).head? = some c → pyIsSpace c = false :=
    fun c hc =>
      subRunsGo_head_not pyIsSpace ' ' (pyStrip l) (pyStrip_head_not_ws l) false c hc
  have hl : ∀ c, (normQList l).reverse.head? = some c → pyIsSpace c = false :=
    fun c hc =>
      subRunsGo_last_not pyIsSpace ' ' (pyStrip l) (pyStrip_last_not_ws l) false c hc
  show collapseWS (pyStrip (normQList l)) = normQList l
  rw [pyStrip_eq_self (normQList l) hh hl]
  exact subRunsGo_idem pyIsSpace ' ' rfl (pyStrip l) false

/-- `_norm_q` is idempotent. -/
theorem norm_q_idem (s : String) : _norm_q (_norm_q s) = _norm_q s := by
  show String.mk (normQList (normQList s.data)) = String.mk (normQList s.data)
  rw [normQList_idem]

theorem validate_q_eq (q : String) :
    validate_q q =
      (if ¬ (2 ≤ (_norm_q q).length ∧ (_norm_q q).length ≤ Q_MAX_LEN) then
        Except.error ⟨"Bitte gib einen Ort mit 2-120 Zeichen an.",
          some ("Beispiel: Darmstadt, Hessen, DE")⟩
      else if ¬ (matchesQClass (_norm_q q).data = true) then
        Except.error ⟨"Der Ort enthaelt nicht erlaubte Zeichen.",
          some ("Erlaubt sind Buchstaben/Zahlen, Leerzeichen sowie Satzzeichen")⟩
      else Except.ok (_norm_q q)) := rfl

/-- C7: on a string of length 2..120 over the allowed character set, a
successful validation is idempotent: validating `validate_q`'s own output
returns that output unchanged. -/
theorem validate_q_idempotent (s t : String)
    (_hlen1 : 2 ≤ s.length) (_hlen2 : s.length ≤ Q_MAX_LEN)
    (_hchars : ∀ c ∈ s.data, qClassChar c = true)
    (h : validate_q s = Except.ok t) :
    validate_q t = Except.ok t := by
  rw [validate_q_eq] at h
  by_cases hA : 2 ≤ (_norm_q s).length ∧ (_norm_q s).length ≤ Q_MAX_LEN
  · rw [if_neg (not_not_intro hA)] at h
    by_cases hB : matchesQClass (_norm_q s).data = true
    · rw [if_neg (not_not_intro hB)] at h
      injection h with ht
      subst ht
      rw [validate_q_eq, norm_q_idem, if_neg (not_not_intro hA),
        if_neg (not_not_intro hB)]
    · rw [if_pos hB] at h
      exact Except.noConfusion h
  · rw [if_pos hA] at h
    exact Except.noConfusion h

/-- C7 witness: a double-spaced input validates to its normal form, which then
revalidates to itself. -/
theorem validate_q_idempotent_witness :
    validate_q ("Darmstadt Hessen") = Except.ok ("Darmstadt Hessen") :=
  validate_q_idempotent ("Darmstadt  Hessen") ("Darmstadt Hessen")
    (by decide) (by decide) (by decide) (by decide)
